import Mathlib

/-!
Verification of the LLM commit-message generator of homelab-dev-tools.

The embedded code is the retry-capable generator script (src/unnamed/part_000,
a newer revision of src/git-tools/generate-commit.sh) and the commit driver
src/git-tools/commit.mjs.  Bash/JS strings are modelled as Lean `String`
(in this toolchain a structure around `List Char`); the text-processing
primitives of sed/bash are re-implemented below on `List Char`, faithful to
their POSIX semantics.  awk's floating-point arithmetic in the shrink
heuristic is modelled exactly over `ℚ`; all quantities involved are far from
binary-rounding boundaries, so the claims proved about the `ℚ` model hold for
IEEE doubles as well.
-/

namespace HomelabSpec

/-- POSIX `[[:space:]]` character class (space, tab, CR, LF, vertical tab,
form feed).  Also used for the JS `trim` in commit.mjs, restricted to the
ASCII whitespace both notions share. -/
def isSpacePosix (c : Char) : Bool :=
  c == ' ' || c == '\t' || c == '\r' || c == '\n' || c == Char.ofNat 11 || c == Char.ofNat 12

/-- ASCII `[A-Za-z]`. -/
def isAsciiAlpha (c : Char) : Bool :=
  ('A' ≤ c && c ≤ 'Z') || ('a' ≤ c && c ≤ 'z')

/-- One sed line after `s/^[[:space:]]\+//` and `s/[[:space:]]\+$//`
(part_000 line 202 and line 207). -/
def trimLine (l : List Char) : List Char :=
  ((l.dropWhile isSpacePosix).reverse.dropWhile isSpacePosix).reverse

/-- Trailing-newline stripping performed by a bash command substitution
`$(...)` on the captured output. -/
def stripNlRight (l : List Char) : List Char :=
  (l.reverse.dropWhile (· == '\n')).reverse

/-- Bash `${text//$'\r\n'/$'\n'}` (part_000 line 201): replace every CRLF
pair by LF, scanning left to right. -/
def replaceCRLF : List Char → List Char
  | [] => []
  | '\r' :: '\n' :: rest => '\n' :: replaceCRLF rest
  | c :: rest => c :: replaceCRLF rest

/-- Split a character stream at every `'\n'`, keeping empty components. -/
def splitOnNl : List Char → List (List Char)
  | [] => [[]]
  | c :: rest =>
    if c = '\n' then [] :: splitOnNl rest
    else
      match splitOnNl rest with
      | [] => [[c]]
      | h :: t => (c :: h) :: t

/-- Join components with `'\n'`; left inverse of `splitOnNl`. -/
def intercalateNl : List (List Char) → List Char
  | [] => []
  | [l] => l
  | l :: ls => l ++ '\n' :: intercalateNl ls

/-- The lines sed sees in a stream: a trailing newline terminates the last
line rather than opening an empty one, and empty input has no lines. -/
def toSedLines (cs : List Char) : List (List Char) :=
  let comps := splitOnNl cs
  if comps.getLast? = some [] then comps.dropLast else comps

/-- A sed invocation over the lines of `cs`, captured by `$(...)` (which
strips the trailing newlines of the output). -/
def sedCapture (f : List (List Char) → List (List Char)) (cs : List Char) : List Char :=
  stripNlRight (intercalateNl (f (toSedLines cs)))

/-- The backtick character. -/
def backtick : Char := Char.ofNat 96

/-- Three backticks, the fence token. -/
def fenceMarker : List Char := [backtick, backtick, backtick]

/-- sed pattern `^\x60\x60\x60[A-Za-z]*[[:space:]]*$` (part_000 line 206,
first expression): a fence, an optional language tag, optional trailing
whitespace, end of line. -/
def isFenceOpenLine (l : List Char) : Bool :=
  fenceMarker.isPrefixOf l && ((l.drop 3).dropWhile isAsciiAlpha).all isSpacePosix

/-- sed pattern `^\x60\x60\x60[[:space:]]*$` (part_000 line 206, second
expression). -/
def isFenceCloseLine (l : List Char) : Bool :=
  fenceMarker.isPrefixOf l && (l.drop 3).all isSpacePosix

/-- Apply `f` to the last element of a list, if any (sed address `$`). -/
def modifyLastF (f : List Char → List Char) (ls : List (List Char)) : List (List Char) :=
  (List.modifyHead f ls.reverse).reverse

/-- The two sed expressions of part_000 line 206: blank line 1 when it is an
opening fence, then blank the last line when it is a closing fence.  The
lines are emptied, not deleted. -/
def fenceSub (ls : List (List Char)) : List (List Char) :=
  modifyLastF (fun l => if isFenceCloseLine l then [] else l)
    (List.modifyHead (fun l => if isFenceOpenLine l then [] else l) ls)

/-- part_000 line 204: `head -n 1 | grep -q` of a line starting with the
fence token. -/
def startsWithFence (cs : List Char) : Bool :=
  match toSedLines cs with
  | [] => false
  | l :: _ => fenceMarker.isPrefixOf l

/-- The double-quote character. -/
def dquote : Char := Char.ofNat 34

/-- The single-quote character. -/
def squote : Char := Char.ofNat 39

/-- part_000 lines 210-214: strip one layer of matching outer quotes.  On a
one-character quote string, `${text:1:${#text}-2}` is a negative-length
substring expansion, a fatal bash error under `set -e`: modelled as `none`. -/
def quoteStrip (cs : List Char) : Option (List Char) :=
  if cs.head? = some dquote ∧ cs.getLast? = some dquote then
    if 2 ≤ cs.length then some ((cs.drop 1).dropLast) else none
  else if cs.head? = some squote ∧ cs.getLast? = some squote then
    if 2 ≤ cs.length then some ((cs.drop 1).dropLast) else none
  else some cs

/-- sanitize_commit_message (part_000 lines 199-217 = generate-commit.sh
lines 188-206) on the character list of the input: CRLF normalization,
per-line trim, fence-line blanking (guarded by the first line starting with
a fence), and one layer of outer-quote stripping.  Each sed pipeline runs
inside a command substitution, hence the `sedCapture` trailing-newline
stripping. -/
def sanitizeL (cs : List Char) : Option (List Char) :=
  let t1 := replaceCRLF cs
  let t2 := sedCapture (List.map trimLine) t1
  let t3 :=
    if startsWithFence t2 then
      sedCapture (fun ls => List.map trimLine (fenceSub ls)) t2
    else t2
  quoteStrip t3

/-- sanitize_commit_message on Lean strings. -/
def sanitize_commit_message (s : String) : Option String :=
  (sanitizeL s.data).map String.mk

/-- truncate (part_000 lines 173-184 = generate-commit.sh lines 162-173):
texts of at most `max` characters pass through unchanged, longer texts are
cut to their first `max` characters followed by a marker naming the number
of characters removed. -/
def truncate (text : String) (max : Nat) : String :=
  if text.length ≤ max then text
  else
    String.mk (text.data.take max) ++ "\n\n... (truncated "
      ++ toString (text.length - max) ++ " chars)"

/-- Bash `${var:-"(empty)"}` as used in build_diff_bundle. -/
def orEmpty (s : String) : String := if s = "" then "(empty)" else s

/-- format_untracked_section (part_000 lines 234-244): the empty list of
untracked files produces the empty string (the guard returns early); a
non-empty list is rendered under its section header. -/
def format_untracked_section (files_text : String) : String :=
  if files_text = "" then ""
  else "### UNTRACKED FILES (paths only)\n\n" ++ files_text ++ "\n\n"

/-- `stripNlRight` on strings (a `$(...)` capture). -/
def stripNlRightS (s : String) : String := String.mk (stripNlRight s.data)

/-- build_diff_bundle (part_000 lines 246-281), parameterized by the four
git query results.  The two heredocs and the untracked section are each
captured by `$(...)`, stripping their trailing newlines, and the three parts
are joined by `printf` with single newlines.  `normalize_utf8` is the
identity on the valid text modelled here. -/
def build_diff_bundle (stat_staged status main_diff files_text : String) : String :=
  let header :=
    stripNlRightS
      ("### CHANGE OVERVIEW\n\n## git diff --staged --stat\n" ++ orEmpty stat_staged
        ++ "\n\n## git status --porcelain\n" ++ orEmpty status ++ "\n\n")
  let diff_section :=
    stripNlRightS ("### DIFF (STAGED ONLY)\n\n" ++ orEmpty main_diff ++ "\n\n")
  let untracked_section := stripNlRightS (format_untracked_section files_text)
  header ++ "\n" ++ diff_section ++ "\n" ++ untracked_section

/-- The outcome of one HTTP attempt, as seen by the main loop.  The error
body is abstracted by the value parse_exceed_ctx (part_000 lines 378-387)
extracts from it: `some (n_prompt_tokens, n_ctx)` for a llama.cpp
exceed_context_size_error payload, `none` otherwise. -/
inductive Attempt where
  | ok (content : String)
  | fail (http : String) (exceed : Option (Nat × Nat))

/-- Terminal state of one run of the generator script. -/
inductive Outcome where
  | success (msg : String)
  | fatalEmpty
  | fatalHttp (http : String)
  | scriptError
deriving DecidableEq

/-- part_000 line 291: `LLM_ERR_HTTP=""`.  The variable is declared as a
global for error handling but no statement of the script ever assigns it
again (call_llm only prints the failure and returns 1, and runs inside a
command substitution). -/
def LLM_ERR_HTTP : String := ""

/-- part_000 line 292: `LLM_ERR_BODY=""`, likewise never reassigned. -/
def LLM_ERR_BODY : String := ""

/-- How the failure handler of the loop obtains the pair (http, parsed
exceed marker) it inspects, given the attempt's actual status and marker. -/
abbrev SeeFn := String → Option (Nat × Nat) → String × Option (Nat × Nat)

/-- The source semantics (part_000 lines 448-449): the handler reads
`LLM_ERR_HTTP` / `LLM_ERR_BODY`, which are still the empty strings, and
parse_exceed_ctx of an empty body yields no marker. -/
def see_source : SeeFn := fun _ _ => (LLM_ERR_HTTP, none)

/-- Modelled from the spec: section 4.3 steps 3-4 read the attempt's actual
HTTP status and response-body marker.  This is the reading the rest of the
retry machinery of part_000 was written for. -/
def see_spec : SeeFn := fun http exceed => (http, exceed)

/-- The awk shrink ratio (part_000 lines 461-467): `r = (n_ctx /
n_prompt_tokens) * 0.85`, then clamped into [0.20, 0.95] by two sequential
conditional assignments. -/
def shrink_factor (n_prompt n_ctx : Nat) : ℚ :=
  let r : ℚ := (n_ctx : ℚ) / (n_prompt : ℚ) * 0.85
  let r1 : ℚ := if r > 0.95 then 0.95 else r
  if r1 < 0.20 then 0.20 else r1

/-- new_max (part_000 lines 461-471): awk `printf("%d", m * r)` truncates
the non-negative product, i.e. takes its floor, and the shell then raises
any result below 2000 to 2000. -/
def new_max (cur_max n_prompt n_ctx : Nat) : Int :=
  let nm : Int := Int.floor ((cur_max : ℚ) * shrink_factor n_prompt n_ctx)
  if nm < 2000 then 2000 else nm

/-- The retry loop of part_000 lines 438-489 plus the post-loop empty-result
check of lines 491-495.  `resp` gives each attempt's HTTP outcome (the
request construction - truncation to `cur_max`, templating, call_llm - is
absorbed into it), `see` gives the pair the failure handler inspects, and
`fuel` bounds the recursion; `fuel = maxRetries` always suffices (see
`run_loop_isSome_of_fuel`).  The returned number is the count of attempts
performed.  A success whose sanitized text is empty reaches the same
post-loop fatal branch as loop exhaustion, exactly as in the script. -/
def run_loop (resp : Nat → Attempt) (maxRetries : Nat) (see : SeeFn) :
    Nat → Nat → Nat → Option (Outcome × Nat)
  | 0, attempt, _ =>
    if maxRetries < attempt then some (Outcome.fatalEmpty, attempt - 1) else none
  | fuel + 1, attempt, cur_max =>
    if maxRetries < attempt then some (Outcome.fatalEmpty, attempt - 1)
    else
      match resp attempt with
      | Attempt.ok raw =>
        match sanitize_commit_message raw with
        | none => some (Outcome.scriptError, attempt)
        | some msg =>
          if msg = "" then some (Outcome.fatalEmpty, attempt)
          else some (Outcome.success msg, attempt)
      | Attempt.fail http exceed =>
        let seen := see http exceed
        if seen.1 = "400" then
          match seen.2 with
          | some (n_prompt, n_ctx) =>
            if 0 < n_prompt ∧ 0 < n_ctx then
              run_loop resp maxRetries see fuel (attempt + 1)
                (new_max cur_max n_prompt n_ctx).toNat
            else some (Outcome.fatalHttp seen.1, attempt)
          | none => some (Outcome.fatalHttp seen.1, attempt)
        else some (Outcome.fatalHttp seen.1, attempt)

/-- One run of the generator script as written: attempt counter starts at 1,
character budget at `max_chars`, and the failure handler reads the
never-assigned globals. -/
def generate_pipeline (resp : Nat → Attempt) (maxRetries max_chars : Nat) :
    Option (Outcome × Nat) :=
  run_loop resp maxRetries see_source maxRetries 1 max_chars

/-- Modelled from the spec: the same run with the section 4.3 failure
handler that sees the attempt's actual status and marker. -/
def generate_pipeline_spec (resp : Nat → Attempt) (maxRetries max_chars : Nat) :
    Option (Outcome × Nat) :=
  run_loop resp maxRetries see_spec maxRetries 1 max_chars

/-- The diagnostic the script prints for each terminal outcome (part_000
line 492 for the empty/exhausted case, line 484 for the HTTP-failure case
with its `${http:-unknown}` fallback). -/
def diag : Outcome → String
  | Outcome.success msg => msg
  | Outcome.fatalEmpty => "ERROR: Empty response from LLM (or retries exhausted)."
  | Outcome.fatalHttp http =>
    "ERROR: LLM request failed (HTTP " ++ (if http = "" then "unknown" else http) ++ ")"
  | Outcome.scriptError => "bash: substring expression < 0"

/-- A server that always answers HTTP 400 with the exceed-context payload of
spec Scenario B (n_prompt_tokens 4742, n_ctx 2048). -/
def resp400 : Nat → Attempt := fun _ => Attempt.fail "400" (some (4742, 2048))

/-- A server that answers 200 with a body whose content sanitizes to the
empty string. -/
def respEmptyOk : Nat → Attempt := fun _ => Attempt.ok "```"

/-- JS `msg.split(/\r?\n/)` of commit.mjs: CRLF or LF separate lines, a lone
CR does not. -/
def splitCRLF : List Char → List (List Char)
  | [] => [[]]
  | '\r' :: '\n' :: rest => [] :: splitCRLF rest
  | '\n' :: rest => [] :: splitCRLF rest
  | c :: rest =>
    match splitCRLF rest with
    | [] => [[c]]
    | h :: t => (c :: h) :: t

/-- JS `trimEnd`. -/
def trimEndJs (l : List Char) : List Char := (l.reverse.dropWhile isSpacePosix).reverse

/-- JS `Array.prototype.findIndex`, with `none` for -1. -/
def jsFindIndex (p : List Char → Bool) : List (List Char) → Option Nat
  | [] => none
  | l :: ls => if p l then some 0 else (jsFindIndex p ls).map (· + 1)

/-- The seven conventional-commit types, in the order of the regex
alternation of commit.mjs line 257. -/
def ctypes : List String := ["feat", "fix", "refactor", "chore", "docs", "test", "perf"]

/-- The commit-type keyword matching at position 0, if any.  No keyword is a
prefix of another, so at most one alternative of the regex can match and the
ordered search mirrors the regex engine exactly. -/
def convPrefixFind (s : List Char) : Option (List Char) :=
  (ctypes.map String.data).find? (fun k => k.isPrefixOf s)

/-- The optional group `(\([^)]+\))?` at the head of `r`: an opening
parenthesis, at least one non-parenthesis character, a closing parenthesis.
Returns the remainder on a match. -/
def parenMatch (r : List Char) : Option (List Char) :=
  match r with
  | '(' :: rest =>
    let inner := rest.takeWhile (fun c => !(c == ')'))
    match rest.dropWhile (fun c => !(c == ')')) with
    | ')' :: after => if inner.isEmpty then none else some after
    | _ => none
  | _ => none

/-- Continuation of `\s+.+` after its first whitespace character: either the
next character is matched by `.` (any non-newline), or it extends `\s+` and
the search continues.  Mirrors the regex backtracking. -/
def dotAfter : List Char → Bool
  | [] => false
  | d :: rest => (!(d == '\n')) || (isSpacePosix d && dotAfter rest)

/-- `:\s+.+` anchored at the head of `r`. -/
def contColon (r : List Char) : Bool :=
  match r with
  | ':' :: c :: rest => isSpacePosix c && dotAfter rest
  | _ => false

/-- `(\([^)]+\))?:\s+.+` anchored at the head of `r`, with the backtracking
fallback to the empty optional group. -/
def re_rest (r : List Char) : Bool :=
  match parenMatch r with
  | some after => contColon after || contColon r
  | none => contColon r

/-- The test regex of commit.mjs line 257:
`^(feat|fix|refactor|chore|docs|test|perf)(\([^)]+\))?:\s+.+`. -/
def re_test (s : List Char) : Bool :=
  match convPrefixFind s with
  | some k => re_rest (s.drop k.length)
  | none => false

/-- `subject0.replace(^(feat|fix|refactor|chore|docs|test|perf), commitType)`
of commit.mjs lines 261-264. -/
def replaceTypePrefix (t s : List Char) : List Char :=
  match convPrefixFind s with
  | some k => t ++ s.drop k.length
  | none => s

/-- The subject rewrite of applyType (commit.mjs lines 257-267): replace an
existing conventional-commit prefix by `commitType`, or rewrite the subject
as `commitType: subject` (`commitType: update` for an empty subject). -/
def applySubject (commitType : String) (subject0 : List Char) : List Char :=
  if re_test subject0 then replaceTypePrefix commitType.data subject0
  else commitType.data ++ (": ").data ++ (if subject0.isEmpty then ("update").data else subject0)

/-- applyType (commit.mjs lines 248-272): take the first non-empty line as
the subject, rewrite it with `applySubject`, and reattach a non-blank body
after a blank line (the `out.join` of line 271). -/
def applyType (commitType msg : String) : String :=
  let lines := splitCRLF msg.data
  let idx := jsFindIndex (fun l => !(trimLine l).isEmpty) lines
  let subject0 : List Char :=
    match idx with
    | some i => trimLine (lines.getD i [])
    | none => []
  let body : List Char :=
    match idx with
    | some i => intercalateNl (lines.drop (i + 1))
    | none => []
  if !(trimLine body).isEmpty then
    String.mk (applySubject commitType subject0 ++ ('\n' :: '\n' :: trimEndJs body))
  else String.mk (applySubject commitType subject0)

end HomelabSpec

namespace HomelabSpec

/-! Helper lemmas about the line model. -/

theorem splitOnNl_ne_nil : ∀ cs : List Char, splitOnNl cs ≠ []
  | [] => by simp [splitOnNl]
  | c :: rest => by
    simp only [splitOnNl]
    by_cases hc : c = '\n'
    · rw [if_pos hc]; simp
    · rw [if_neg hc]; cases splitOnNl rest <;> simp

theorem intercalateNl_splitOnNl : ∀ cs : List Char, intercalateNl (splitOnNl cs) = cs
  | [] => rfl
  | c :: rest => by
    have ih := intercalateNl_splitOnNl rest
    by_cases hc : c = '\n'
    · subst hc
      simp only [splitOnNl, if_pos rfl]
      cases hsp : splitOnNl rest with
      | nil => exact absurd hsp (splitOnNl_ne_nil _)
      | cons h t =>
        rw [hsp] at ih
        show ([] : List Char) ++ '\n' :: intercalateNl (h :: t) = '\n' :: rest
        rw [List.nil_append, ih]
    · simp only [splitOnNl, if_neg hc]
      cases hsp : splitOnNl rest with
      | nil => exact absurd hsp (splitOnNl_ne_nil _)
      | cons h t =>
        rw [hsp] at ih
        cases t with
        | nil =>
          show c :: h = c :: rest
          simp only [intercalateNl] at ih
          rw [ih]
        | cons h2 t2 =>
          show (c :: h) ++ '\n' :: intercalateNl (h2 :: t2) = c :: rest
          simp only [intercalateNl] at ih
          rw [List.cons_append]
          exact congrArg (c :: ·) ih

theorem splitOnNl_cons (c : Char) (rest : List Char) :
    splitOnNl (c :: rest)
      = if c = '\n' then [] :: splitOnNl rest
        else
          match splitOnNl rest with
          | [] => [[c]]
          | h :: t => (c :: h) :: t := rfl

theorem getLast?_splitOnNl :
    ∀ cs : List Char, cs ≠ [] → cs.getLast? ≠ some '\n' →
      ¬((splitOnNl cs).getLast? = some [])
  | [], h, _ => absurd rfl h
  | [c], _, h3 => by
    have hc : ¬(c = '\n') := by simpa using h3
    simp only [splitOnNl]
    rw [if_neg hc]
    simp [splitOnNl]
  | c :: c2 :: rest, _, h3 => by
    have h3' : (c2 :: rest).getLast? ≠ some '\n' := by
      rwa [List.getLast?_cons_cons] at h3
    have ih := getLast?_splitOnNl (c2 :: rest) (by simp) h3'
    rw [splitOnNl_cons]
    cases hsp : splitOnNl (c2 :: rest) with
    | nil => exact absurd hsp (splitOnNl_ne_nil _)
    | cons h t =>
      rw [hsp] at ih
      by_cases hc : c = '\n'
      · rw [if_pos hc]
        rw [List.getLast?_cons_cons]
        exact ih
      · rw [if_neg hc]
        show ¬(((c :: h) :: t).getLast? = some [])
        cases t with
        | nil => simp
        | cons h2 t2 =>
          rw [List.getLast?_cons_cons]
          rwa [List.getLast?_cons_cons] at ih

theorem stripNlRight_of_getLast (cs : List Char) (h : cs.getLast? ≠ some '\n') :
    stripNlRight cs = cs := by
  have hdrop : cs.reverse.dropWhile (· == '\n') = cs.reverse := by
    cases hrev : cs.reverse with
    | nil => rfl
    | cons a t =>
      have ha : cs.getLast? = some a := by
        rw [← List.head?_reverse, hrev]; rfl
      rw [List.dropWhile_cons_of_neg]
      simp only [beq_iff_eq]
      intro hEq
      exact h (by rw [ha, hEq])
  unfold stripNlRight
  rw [hdrop, List.reverse_reverse]

theorem sedCapture_trim_id (cs : List Char)
    (h2 : ∀ l ∈ splitOnNl cs, trimLine l = l)
    (h3 : cs.getLast? ≠ some '\n') :
    sedCapture (List.map trimLine) cs = cs := by
  rcases eq_or_ne cs [] with rfl | hne
  · rfl
  · simp only [sedCapture, toSedLines]
    rw [if_neg (getLast?_splitOnNl cs hne h3)]
    rw [List.map_congr_left h2, List.map_id', intercalateNl_splitOnNl]
    exact stripNlRight_of_getLast cs h3

/-- C5 counterexample: the sanitizer is not idempotent.  On a doubly
quote-wrapped input a second application strips a second quote layer, so
`sanitize (sanitize x) ≠ sanitize x`. -/
theorem sanitize_not_idempotent_double_quotes :
    sanitize_commit_message "\"\"hi\"\"" = some "\"hi\""
    ∧ sanitize_commit_message "\"hi\"" = some "hi"
    ∧ (sanitize_commit_message "\"\"hi\"\"").bind sanitize_commit_message
        ≠ sanitize_commit_message "\"\"hi\"\"" := by decide

/-- C5 (amended): the sanitizer is the identity - hence idempotent - on
already-clean input: no CRLF, every line trimmed, no trailing newline, first
line not a code fence, and not wrapped in matching outer quotes.  On general
input idempotence fails (see the counterexample). -/
theorem sanitize_identity_on_clean (s : String)
    (h1 : replaceCRLF s.data = s.data)
    (h2 : ∀ l ∈ splitOnNl s.data, trimLine l = l)
    (h3 : s.data.getLast? ≠ some '\n')
    (h4 : startsWithFence s.data = false)
    (h5 : ¬(s.data.head? = some dquote ∧ s.data.getLast? = some dquote))
    (h6 : ¬(s.data.head? = some squote ∧ s.data.getLast? = some squote)) :
    sanitize_commit_message s = some s
    ∧ (sanitize_commit_message s).bind sanitize_commit_message
        = sanitize_commit_message s := by
  have e2 : sedCapture (List.map trimLine) (replaceCRLF s.data) = s.data := by
    rw [h1]; exact sedCapture_trim_id s.data h2 h3
  have key : sanitize_commit_message s = some s := by
    simp only [sanitize_commit_message, sanitizeL, e2, h4]
    simp only [Bool.false_eq_true, if_false]
    unfold quoteStrip
    rw [if_neg h5, if_neg h6]
    rfl
  refine ⟨key, ?_⟩
  rw [key]
  simpa using key

/-- C5 witness: the clean input `feat: add x` is a fixed point of the
sanitizer. -/
theorem sanitize_identity_on_clean_witness :
    replaceCRLF ("feat: add x").data = ("feat: add x").data
    ∧ sanitize_commit_message "feat: add x" = some "feat: add x"
    ∧ (sanitize_commit_message "feat: add x").bind sanitize_commit_message
        = sanitize_commit_message "feat: add x" := by
  have h := sanitize_identity_on_clean "feat: add x" (by decide) (by decide)
    (by decide) (by decide) (by decide) (by decide)
  exact ⟨by decide, h.1, h.2⟩

/-- C6: on the fenced three-line output the sanitizer blanks the two fence
lines instead of deleting them; only the trailing blank is removed by the
command substitution, so the result keeps a leading newline and is not the
bare subject the spec describes. -/
theorem sanitize_fence_leaves_leading_blank :
    sanitize_commit_message "```\nfeat: add x\n```" = some "\nfeat: add x"
    ∧ sanitize_commit_message "```\nfeat: add x\n```" ≠ some "feat: add x" := by decide

/-- C9: truncation returns short-enough text unchanged, and on longer text
yields exactly the first `max` characters followed by the marker naming the
number of characters cut. -/
theorem truncate_spec (text : String) (max : Nat) :
    (text.length ≤ max → truncate text max = text)
    ∧ (max < text.length →
        (truncate text max).data.take max = text.data.take max
        ∧ (truncate text max).data.drop max
            = ("\n\n... (truncated " ++ toString (text.length - max) ++ " chars)").data) := by
  constructor
  · intro h; unfold truncate; rw [if_pos h]
  · intro h
    have hdata : (truncate text max).data
        = text.data.take max
          ++ ("\n\n... (truncated " ++ toString (text.length - max) ++ " chars)").data := by
      unfold truncate
      rw [if_neg (by omega)]
      simp only [String.data_append, List.append_assoc]
    have hlenEq : text.length = text.data.length := rfl
    have hlen : (text.data.take max).length = max := by
      rw [List.length_take]
      omega
    constructor
    · rw [hdata, List.take_left' hlen]
    · rw [hdata, List.drop_left' hlen]

/-- C9 witness: a short text passes unchanged; a six-character text cut at
three keeps its first three characters and appends the three-character
marker. -/
theorem truncate_spec_witness :
    ("abc".length ≤ 5 ∧ truncate "abc" 5 = "abc")
    ∧ (3 < "abcdef".length
        ∧ (truncate "abcdef" 3).data.take 3 = "abcdef".data.take 3
        ∧ (truncate "abcdef" 3).data.drop 3 = ("\n\n... (truncated 3 chars)").data) := by
  refine ⟨⟨by decide, (truncate_spec "abc" 5).1 (by decide)⟩, by decide,
    ((truncate_spec "abcdef" 3).2 (by decide)).1, ?_⟩
  exact (((truncate_spec "abcdef" 3).2 (by decide)).2).trans (by decide)

set_option maxRecDepth 40000 in
/-- C8 counterexample: an empty untracked list makes format_untracked_section
return the empty string, so the untracked section is omitted from the bundle
(no header, no placeholder token) rather than rendered as a placeholder. -/
theorem untracked_empty_section_omitted :
    format_untracked_section "" = ""
    ∧ build_diff_bundle "a" "b" "c" ""
        = "### CHANGE OVERVIEW\n\n## git diff --staged --stat\na\n\n## git status --porcelain\nb\n### DIFF (STAGED ONLY)\n\nc\n"
    ∧ ¬(("UNTRACKED").data <:+: (build_diff_bundle "a" "b" "c" "").data) := by decide

set_option maxRecDepth 40000 in
/-- C8 (amended): the bundle renders its sections in the fixed order
stat-summary, short-status, staged diff, untracked list; the first three
render the placeholder `(empty)` when empty, while the untracked section is
omitted entirely when there are no untracked files and carries its header
otherwise. -/
theorem bundle_order_and_placeholders :
    build_diff_bundle "" "" "" ""
      = "### CHANGE OVERVIEW\n\n## git diff --staged --stat\n(empty)\n\n## git status --porcelain\n(empty)\n### DIFF (STAGED ONLY)\n\n(empty)\n"
    ∧ build_diff_bundle "" "" "" "u.txt"
      = "### CHANGE OVERVIEW\n\n## git diff --staged --stat\n(empty)\n\n## git status --porcelain\n(empty)\n### DIFF (STAGED ONLY)\n\n(empty)\n### UNTRACKED FILES (paths only)\n\nu.txt" := by decide

end HomelabSpec

namespace HomelabSpec

/-! The shrink heuristic. -/

theorem shrink_factor_bounds (n_prompt n_ctx : Nat) :
    1 / 5 ≤ shrink_factor n_prompt n_ctx ∧ shrink_factor n_prompt n_ctx ≤ 19 / 20 := by
  simp only [shrink_factor]
  split_ifs with h1 h2 h3 <;> constructor <;> try norm_num
  · norm_num at h3
    linarith
  · norm_num at h1
    linarith

theorem shrink_factor_4742_2048 : shrink_factor 4742 2048 = 4352 / 11855 := by
  simp only [shrink_factor]
  rw [if_neg (by norm_num), if_neg (by norm_num)]
  norm_num

theorem new_max_12000 : new_max 12000 4742 2048 = 4405 := by
  have hf : Int.floor (((12000 : Nat) : ℚ) * shrink_factor 4742 2048) = 4405 := by
    rw [shrink_factor_4742_2048, Int.floor_eq_iff] <;> norm_num
  simp only [new_max, hf]
  norm_num

theorem new_max_4405 : new_max 4405 4742 2048 = 2000 := by
  have hf : Int.floor (((4405 : Nat) : ℚ) * shrink_factor 4742 2048) = 1617 := by
    rw [shrink_factor_4742_2048, Int.floor_eq_iff] <;> norm_num
  simp only [new_max, hf]
  norm_num

theorem new_max_2000 : new_max 2000 4742 2048 = 2000 := by
  have hf : Int.floor (((2000 : Nat) : ℚ) * shrink_factor 4742 2048) = 734 := by
    rw [shrink_factor_4742_2048, Int.floor_eq_iff] <;> norm_num
  simp only [new_max, hf]
  norm_num

/-- C3 counterexample: on Scenario B (currentMax 12000, promptTokens 4742,
contextSize 2048) the code computes newMax = 4405, not the 4404 the spec
obtains by first rounding the ratio to 0.367. -/
theorem scenarioB_new_max_ne_4404 : new_max 12000 4742 2048 ≠ 4404 := by
  rw [new_max_12000]; decide

/-- C3 (amended): Scenario B yields newMax = 4405, above the 2000 floor, so
the retry would proceed with 4405. -/
theorem scenarioB_new_max_eq_4405 :
    new_max 12000 4742 2048 = 4405 ∧ (2000 : Int) < new_max 12000 4742 2048 := by
  refine ⟨new_max_12000, ?_⟩
  rw [new_max_12000]; decide

/-- C4 (amended): newMax never falls below the 2000 floor, the clamped ratio
is always below 1 (it is capped at 0.95), and newMax is strictly smaller
than currentMax whenever currentMax exceeds 2000; for currentMax at or below
2000 the floor clamp can make newMax equal to or larger than currentMax (see
the counterexample). -/
theorem new_max_floor_and_strict_shrink (cur_max n_prompt n_ctx : Nat)
    (hp : 0 < n_prompt) (hc : 0 < n_ctx) :
    (2000 : Int) ≤ new_max cur_max n_prompt n_ctx
    ∧ shrink_factor n_prompt n_ctx < 1
    ∧ (2000 < cur_max → new_max cur_max n_prompt n_ctx < (cur_max : Int)) := by
  obtain ⟨hlo, hhi⟩ := shrink_factor_bounds n_prompt n_ctx
  refine ⟨?_, by linarith, ?_⟩
  · simp only [new_max]
    split_ifs with hnm
    · norm_num
    · omega
  · intro hm
    simp only [new_max]
    split_ifs with hnm
    · exact_mod_cast hm
    · have h0 : 0 < cur_max := by omega
      have hmq : (0 : ℚ) < (cur_max : ℚ) := by exact_mod_cast h0
      have hlt : (cur_max : ℚ) * shrink_factor n_prompt n_ctx < ((cur_max : Int) : ℚ) := by
        push_cast
        calc (cur_max : ℚ) * shrink_factor n_prompt n_ctx
            < (cur_max : ℚ) * 1 := mul_lt_mul_of_pos_left (by linarith) hmq
          _ = (cur_max : ℚ) := mul_one _
      exact Int.floor_lt.mpr hlt

/-- C4 witness: on Scenario B with currentMax 12000 the bounds hold
concretely. -/
theorem new_max_floor_and_strict_shrink_witness :
    0 < 4742 ∧ 0 < 2048
    ∧ (2000 : Int) ≤ new_max 12000 4742 2048
    ∧ new_max 12000 4742 2048 < (12000 : Int) := by
  have h := new_max_floor_and_strict_shrink 12000 4742 2048 (by norm_num) (by norm_num)
  exact ⟨by norm_num, by norm_num, h.1, h.2.2 (by norm_num)⟩

/-- C4 counterexample: at currentMax = 2000 the clamped ratio is below 1 yet
newMax = 2000 is not strictly smaller than currentMax, because the
2000-character floor absorbs the shrink. -/
theorem new_max_no_strict_shrink_at_floor :
    shrink_factor 4742 2048 < 1
    ∧ new_max 2000 4742 2048 = 2000
    ∧ ¬(new_max 2000 4742 2048 < (2000 : Int)) := by
  refine ⟨?_, new_max_2000, ?_⟩
  · rw [shrink_factor_4742_2048]; norm_num
  · rw [new_max_2000]; decide

/-! The retry loop. -/

theorem run_loop_isSome_of_fuel (resp : Nat → Attempt) (maxRetries : Nat) (see : SeeFn) :
    ∀ fuel attempt cur_max, maxRetries + 1 ≤ attempt + fuel →
      (run_loop resp maxRetries see fuel attempt cur_max).isSome = true := by
  intro fuel
  induction fuel with
  | zero =>
    intro attempt cur_max h
    simp only [run_loop]
    rw [if_pos (by omega)]
    rfl
  | succ fuel ih =>
    intro attempt cur_max h
    simp only [run_loop]
    split
    · rfl
    · split
      · split
        · rfl
        · split <;> rfl
      · split
        · split
          · split
            · exact ih _ _ (by omega)
            · rfl
          · rfl
        · rfl

theorem run_loop_attempts_le (resp : Nat → Attempt) (maxRetries : Nat) (see : SeeFn) :
    ∀ fuel attempt cur_max out n, attempt ≤ maxRetries + 1 →
      run_loop resp maxRetries see fuel attempt cur_max = some (out, n) →
      n ≤ maxRetries := by
  intro fuel
  induction fuel with
  | zero =>
    intro attempt cur_max out n ha hrun
    simp only [run_loop] at hrun
    by_cases hg : maxRetries < attempt
    · rw [if_pos hg] at hrun
      simp only [Option.some.injEq, Prod.mk.injEq] at hrun
      omega
    · rw [if_neg hg] at hrun
      exact absurd hrun (by simp)
  | succ fuel ih =>
    intro attempt cur_max out n ha hrun
    simp only [run_loop] at hrun
    by_cases hg : maxRetries < attempt
    · rw [if_pos hg] at hrun
      simp only [Option.some.injEq, Prod.mk.injEq] at hrun
      omega
    · rw [if_neg hg] at hrun
      split at hrun
      · split at hrun
        · simp only [Option.some.injEq, Prod.mk.injEq] at hrun
          omega
        · split at hrun <;>
            (simp only [Option.some.injEq, Prod.mk.injEq] at hrun; omega)
      · split at hrun
        · split at hrun
          · split at hrun
            · exact ih (attempt + 1) _ out n (by omega) hrun
            · simp only [Option.some.injEq, Prod.mk.injEq] at hrun
              omega
          · simp only [Option.some.injEq, Prod.mk.injEq] at hrun
            omega
        · simp only [Option.some.injEq, Prod.mk.injEq] at hrun
          omega

/-- C2: for every server-response sequence and every failure-handler view
(both the script's `see_source` and the spec's `see_spec` are instances),
the loop started the way the script starts it (attempt 1, fuel maxRetries)
yields a terminal outcome after at most maxRetries attempts; it never runs
out of fuel, i.e. never loops beyond the attempt ceiling. -/
theorem run_loop_terminates_within_max (resp : Nat → Attempt) (see : SeeFn)
    (maxRetries max_chars : Nat) :
    ∃ out n, run_loop resp maxRetries see maxRetries 1 max_chars = some (out, n)
      ∧ n ≤ maxRetries := by
  have h1 := run_loop_isSome_of_fuel resp maxRetries see maxRetries 1 max_chars (by omega)
  obtain ⟨⟨out, n⟩, hsome⟩ := Option.isSome_iff_exists.mp h1
  exact ⟨out, n, hsome,
    run_loop_attempts_le resp maxRetries see maxRetries 1 max_chars out n (by omega) hsome⟩

theorem run_loop_retry_step (resp : Nat → Attempt) (maxRetries : Nat)
    (fuel attempt cur_max n_prompt n_ctx : Nat) (http : String)
    (hg : ¬maxRetries < attempt)
    (hresp : resp attempt = Attempt.fail http (some (n_prompt, n_ctx)))
    (hhttp : http = "400") (hp : 0 < n_prompt) (hc : 0 < n_ctx) :
    run_loop resp maxRetries see_spec (fuel + 1) attempt cur_max
      = run_loop resp maxRetries see_spec fuel (attempt + 1)
          (new_max cur_max n_prompt n_ctx).toNat := by
  subst hhttp
  simp only [run_loop, if_neg hg, hresp, see_spec]
  rw [if_pos trivial, if_pos ⟨hp, hc⟩]

theorem spec_run_exhausts :
    generate_pipeline_spec resp400 3 12000 = some (Outcome.fatalEmpty, 3) := by
  have s1 : run_loop resp400 3 see_spec 3 1 12000
      = run_loop resp400 3 see_spec 2 2 4405 := by
    have h := run_loop_retry_step resp400 3 2 1 12000 4742 2048 "400"
      (by omega) rfl rfl (by norm_num) (by norm_num)
    rw [new_max_12000] at h
    exact h
  have s2 : run_loop resp400 3 see_spec 2 2 4405
      = run_loop resp400 3 see_spec 1 3 2000 := by
    have h := run_loop_retry_step resp400 3 1 2 4405 4742 2048 "400"
      (by omega) rfl rfl (by norm_num) (by norm_num)
    rw [new_max_4405] at h
    exact h
  have s3 : run_loop resp400 3 see_spec 1 3 2000
      = run_loop resp400 3 see_spec 0 4 2000 := by
    have h := run_loop_retry_step resp400 3 0 3 2000 4742 2048 "400"
      (by omega) rfl rfl (by norm_num) (by norm_num)
    rw [new_max_2000] at h
    exact h
  have s4 : run_loop resp400 3 see_spec 0 4 2000 = some (Outcome.fatalEmpty, 3) := by
    simp only [run_loop]
    rw [if_pos (by omega)]
  show run_loop resp400 3 see_spec 3 1 12000 = some (Outcome.fatalEmpty, 3)
  rw [s1, s2, s3, s4]

/-- C1: on an HTTP 400 attempt whose body carries the exceed-context marker
with positive fields, and with attempts remaining, the script as written
still exits fatally on that first attempt (reporting an empty HTTP status,
printed as `unknown`), because the handler reads the never-assigned globals;
the spec-modelled handler instead reaches the retry branch and performs all
three attempts. -/
theorem retry_branch_unreachable :
    generate_pipeline resp400 3 12000 = some (Outcome.fatalHttp "", 1)
    ∧ generate_pipeline_spec resp400 3 12000 = some (Outcome.fatalEmpty, 3) :=
  ⟨by decide, spec_run_exhausts⟩

/-- C7 counterexample: an empty 200-result run and a retry-exhaustion run
produce the same diagnostic string, so the two failure modes are not
distinguished. -/
theorem empty_and_exhaustion_diag_equal :
    (generate_pipeline respEmptyOk 3 12000).map (fun r => diag r.1)
      = (generate_pipeline_spec resp400 3 12000).map (fun r => diag r.1)
    ∧ (generate_pipeline respEmptyOk 3 12000).map (fun r => diag r.1)
      = some "ERROR: Empty response from LLM (or retries exhausted)." := by
  have hA : generate_pipeline respEmptyOk 3 12000 = some (Outcome.fatalEmpty, 1) := by decide
  rw [hA, spec_run_exhausts]
  exact ⟨rfl, rfl⟩

/-- C7 (amended): both the empty-result run and the retry-exhaustion run end
in the same fatal state whose single diagnostic names both possibilities,
mentioning retries exhausted explicitly - exhaustion is not silent, but it is
not distinguished from an empty result either. -/
theorem empty_and_exhaustion_shared_message :
    generate_pipeline respEmptyOk 3 12000 = some (Outcome.fatalEmpty, 1)
    ∧ generate_pipeline_spec resp400 3 12000 = some (Outcome.fatalEmpty, 3)
    ∧ diag Outcome.fatalEmpty = "ERROR: Empty response from LLM (or retries exhausted)."
    ∧ ("retries exhausted").data <:+: (diag Outcome.fatalEmpty).data :=
  ⟨by decide, spec_run_exhausts, rfl, by decide⟩

/-! applyType. -/

theorem jsFindIndex_eq_none (p : List Char → Bool) :
    ∀ ls : List (List Char), (∀ l ∈ ls, p l = false) → jsFindIndex p ls = none := by
  intro ls h
  induction ls with
  | nil => rfl
  | cons l ls ih =>
    simp only [jsFindIndex]
    rw [if_neg (by simp [h l (by simp)])]
    rw [ih (fun x hx => h x (by simp [hx]))]
    rfl

theorem re_test_extends (t s : List Char) (h : re_test s = true) :
    ∃ rest, replaceTypePrefix t s = t ++ rest := by
  unfold re_test at h
  unfold replaceTypePrefix
  cases hc : convPrefixFind s with
  | none => rw [hc] at h; exact absurd h (by simp)
  | some k => exact ⟨s.drop k.length, rfl⟩

theorem applySubject_extends (t : String) (s0 : List Char) :
    ∃ r, applySubject t s0 = t.data ++ r := by
  unfold applySubject
  by_cases hre : re_test s0
  · rw [if_pos hre]
    exact re_test_extends t.data s0 hre
  · rw [if_neg hre]
    exact ⟨(": ").data ++ (if s0.isEmpty then ("update").data else s0), by
      rw [List.append_assoc]⟩

end HomelabSpec

namespace HomelabSpec

/-- C10: for every commit type among the seven supported ones and every
message, the first line of applyType's output begins with that type: the
output as a whole extends `t` at its head (the subject either had its
conventional prefix replaced by `t` or was rewritten as `t: subject`), and a
message with no non-empty line yields exactly `t: update`. -/
theorem applyType_first_line (t msg : String) (ht : t ∈ ctypes) :
    (∃ r : List Char, (applyType t msg).data = t.data ++ r)
    ∧ ((∀ l ∈ splitCRLF msg.data, trimLine l = []) → applyType t msg = t ++ ": update") := by
  constructor
  · have main : ∀ s0 b : List Char, ∃ r,
        (if !(trimLine b).isEmpty then
            String.mk (applySubject t s0 ++ ('\n' :: '\n' :: trimEndJs b))
          else String.mk (applySubject t s0)).data = t.data ++ r := by
      intro s0 b
      obtain ⟨r0, hr0⟩ := applySubject_extends t s0
      split
      · exact ⟨r0 ++ ('\n' :: '\n' :: trimEndJs b), by
          dsimp only
          rw [hr0, List.append_assoc]⟩
      · exact ⟨r0, by
          dsimp only
          rw [hr0]⟩
    simp only [applyType]
    exact main _ _
  · intro hAll
    have hidx : jsFindIndex (fun l => !(trimLine l).isEmpty) (splitCRLF msg.data) = none :=
      jsFindIndex_eq_none _ _ (fun l hl => by rw [hAll l hl]; rfl)
    simp only [applyType, hidx]
    show String.mk (applySubject t []) = t ++ ": update"
    show String.mk (t.data ++ (": ").data ++ ("update").data) = t ++ ": update"
    have hs : ((": ").data ++ ("update").data) = (": update").data := by decide
    calc String.mk (t.data ++ (": ").data ++ ("update").data)
        = String.mk (t.data ++ ((": ").data ++ ("update").data)) := by
          rw [List.append_assoc]
      _ = String.mk (t.data ++ (": update").data) := by rw [hs]
      _ = t ++ ": update" := rfl

/-- C10 witness: the type `feat` applied to the empty message yields
`feat: update`, whose first line begins with `feat`. -/
theorem applyType_first_line_witness :
    ("feat" ∈ ctypes)
    ∧ applyType "feat" "" = "feat" ++ ": update"
    ∧ applyType "feat" "" = "feat: update" := by
  refine ⟨by decide, (applyType_first_line "feat" "" (by decide)).2 ?_, by decide⟩
  decide

end HomelabSpec
